import Mathlib

/-!
Verification of the ICMP wire codec (src/src/icmp.cpp) against its
natural-language specification.

The embedding models the ICMP message object at byte level: the fixed
8-byte header struct is kept as a list of byte values exactly as the
code memcpy-s it to and from the wire, and the timestamp / address-mask
members are kept as 4-byte lists in wire order.  The out-of-scope
extension-structure collaborator is a parameter (a validator plus a
serializer), so every theorem quantifies over its behaviour.
-/

namespace ICMPSpec

/-- Modelled from the spec: numeric ICMP kind values.  They live in the
header file of the class (not part of the provided sources); the spec
fixes the set of kinds and byte 0 of the fixed header carries the kind. -/
def ECHO_REPLY : Nat := 0

/-- Modelled from the spec: see `ECHO_REPLY`. -/
def DEST_UNREACHABLE : Nat := 3

/-- Modelled from the spec: see `ECHO_REPLY`. -/
def SOURCE_QUENCH : Nat := 4

/-- Modelled from the spec: see `ECHO_REPLY`. -/
def REDIRECT : Nat := 5

/-- Modelled from the spec: see `ECHO_REPLY`. -/
def ECHO_REQUEST : Nat := 8

/-- Modelled from the spec: see `ECHO_REPLY`. -/
def TIME_EXCEEDED : Nat := 11

/-- Modelled from the spec: see `ECHO_REPLY`. -/
def PARAM_PROBLEM : Nat := 12

/-- Modelled from the spec: see `ECHO_REPLY`. -/
def TIMESTAMP_REQUEST : Nat := 13

/-- Modelled from the spec: see `ECHO_REPLY`. -/
def TIMESTAMP_REPLY : Nat := 14

/-- Modelled from the spec: see `ECHO_REPLY`. -/
def ADDRESS_MASK_REQUEST : Nat := 17

/-- Modelled from the spec: see `ECHO_REPLY`. -/
def ADDRESS_MASK_REPLY : Nat := 18

/-- `ICMP::EXTENSION_PAYLOAD_LIMIT` (icmp.cpp line 45). -/
def EXTENSION_PAYLOAD_LIMIT : Nat := 128

/-- The out-of-scope extension-structure collaborator, reduced to its
interface: a validator over candidate bytes and a serializer that turns a
stored block (kept as the raw bytes it was parsed from) into wire bytes.
The byte length of the block is the length of its serialization. -/
structure Collab where
  validate : List Nat → Bool
  serializeExt : List Nat → List Nat

/-- The ICMP message object. `hdr` is the 8-byte `icmphdr` struct in wire
byte order (the code memcpy-s it verbatim); the three timestamp members
and the shared timestamp/address-mask member are 4-byte lists in wire
order (the setters store big-endian, the getters undo it, so the code
round-trips the raw wire bytes). `extensions` keeps the raw bytes the
block was parsed from, `innerPdu` the raw inner payload bytes. -/
structure ICMP where
  hdr : List Nat
  origTimestampOrAddressMask : List Nat
  recvTimestamp : List Nat
  transTimestamp : List Nat
  extensions : Option (List Nat)
  innerPdu : Option (List Nat)

/-- Byte 0 of the fixed header: the kind (`ICMP::type()`). -/
def ICMP.type (s : ICMP) : Nat := s.hdr.getD 0 0

/-- Byte 1 of the fixed header (`ICMP::code()`). -/
def ICMP.code (s : ICMP) : Nat := s.hdr.getD 1 0

/-- Modelled from the spec: the RFC 4884 length sub-field sits at byte 5
of the fixed header (spec wire layout: byte 4 = pointer, byte 5 = length).
The bit-field declaration itself is in the class header file, not in the
provided sources. This is `ICMP::length()`. -/
def ICMP.length (s : ICMP) : Nat := s.hdr.getD 5 0

/-- `ICMP::are_extensions_allowed()` (icmp.cpp lines 333-335). -/
def ICMP.areExtensionsAllowed (s : ICMP) : Bool :=
  decide (s.type = DEST_UNREACHABLE ∨ s.type = TIME_EXCEEDED ∨ s.type = PARAM_PROBLEM)

/-- `ICMP::has_extensions()`: whether an extension block is stored. -/
def ICMP.hasExtensions (s : ICMP) : Bool := s.extensions.isSome

/-- `ICMP::get_adjusted_inner_pdu_size()` (icmp.cpp lines 288-299). -/
def ICMP.getAdjustedInnerPduSize (s : ICMP) : Nat :=
  match s.innerPdu with
  | some p =>
    let sz := p.length
    let padding := sz % 4
    if padding ≠ 0 then sz - padding + 4 else sz
  | none => 0

/-- `ICMP::header_size()` (icmp.cpp lines 137-145). -/
def ICMP.headerSize (s : ICMP) : Nat :=
  8 + (if s.type = TIMESTAMP_REQUEST ∨ s.type = TIMESTAMP_REPLY then 12
       else if s.type = ADDRESS_MASK_REQUEST ∨ s.type = ADDRESS_MASK_REPLY then 4
       else 0)

/-- Byte length of the stored extension block, via the collaborator
(`extensions_.size()`). -/
def ICMP.extensionsSize (c : Collab) (s : ICMP) : Nat :=
  (c.serializeExt (s.extensions.getD [])).length

/-- `ICMP::trailer_size()` (icmp.cpp lines 147-161). -/
def ICMP.trailerSize (c : Collab) (s : ICMP) : Nat :=
  if s.hasExtensions then
    s.extensionsSize c +
      (match s.innerPdu with
       | some p => max s.getAdjustedInnerPduSize 128 - p.length
       | none => 0)
  else 0

/-- `PDU::size()`: fixed header plus extras, inner payload, trailer. -/
def ICMP.size (c : Collab) (s : ICMP) : Nat :=
  s.headerSize + (match s.innerPdu with | some p => p.length | none => 0) +
    s.trailerSize c

/-- `ICMP::use_length_field(bool)` (icmp.cpp lines 218-222). -/
def ICMP.useLengthField (s : ICMP) (value : Bool) : ICMP :=
  { s with hdr := s.hdr.set 5 (if value then 1 else 0) }

/-- Overwrite bytes of `dst` starting at `off` with the bytes of `src`,
truncated at the end of `dst` (a bounded `memcpy`). The result always has
the length of `dst`. -/
def splice (dst : List Nat) (off : Nat) (src : List Nat) : List Nat :=
  dst.take off ++ src.take (dst.length - off) ++ dst.drop (off + src.length)

/-- View of a stored 4-byte member as exactly four bytes (a `uint32_t`
member always has four bytes of storage). -/
def pad4 (l : List Nat) : List Nat :=
  [l.getD 0 0, l.getD 1 0, l.getD 2 0, l.getD 3 0]

/-- Modelled from the spec: the 16-bit one's-complement sum primitive
(`Utils::do_checksum`, which lives in the out-of-scope utils module) —
the buffer is summed as 16-bit big-endian words, a trailing lone byte
padded with zero. -/
def sum16 : List Nat → Nat
  | [] => 0
  | [b] => b * 256
  | b1 :: b2 :: rest => b1 * 256 + b2 + sum16 rest

/-- Fuelled form of the carry-fold loop of `write_serialization`
(icmp.cpp lines 281-282): while the sum has high bits, add them back
into the low 16 bits. The fuel strictly dominates the number of loop
iterations, so `foldCarry` below computes the exact fixpoint. -/
def foldCarryAux : Nat → Nat → Nat
  | 0, n => n
  | fuel + 1, n => if n < 65536 then n else foldCarryAux fuel (n % 65536 + n / 65536)

/-- The carry-fold loop of `write_serialization` (icmp.cpp lines 281-282). -/
def foldCarry (n : Nat) : Nat := foldCarryAux n n

/-- The 8 header bytes as written by `memcpy(buffer, &_icmp, ...)` with
the checksum field zeroed (icmp.cpp lines 277-278). -/
def ICMP.hdrWithZeroChecksum (s : ICMP) : List Nat :=
  [s.hdr.getD 0 0, s.hdr.getD 1 0, 0, 0,
   s.hdr.getD 4 0, s.hdr.getD 5 0, s.hdr.getD 6 0, s.hdr.getD 7 0]

/-- Step 1 of `write_serialization` (icmp.cpp lines 230-241): write the
timestamp triple or the address mask at offset 8. -/
def ICMP.wsExtras (s : ICMP) (buf : List Nat) : List Nat :=
  if s.type = TIMESTAMP_REQUEST ∨ s.type = TIMESTAMP_REPLY then
    splice buf 8 (pad4 s.origTimestampOrAddressMask ++ pad4 s.recvTimestamp ++
      pad4 s.transTimestamp)
  else if s.type = ADDRESS_MASK_REQUEST ∨ s.type = ADDRESS_MASK_REPLY then
    splice buf 8 (pad4 s.origTimestampOrAddressMask)
  else buf

/-- Step 2 of `write_serialization` (icmp.cpp lines 244-252): update the
RFC 4884 length sub-field (an 8-bit field, hence the mod 256). -/
def ICMP.wsLengthField (s : ICMP) : ICMP :=
  if s.areExtensionsAllowed then
    let lengthValue := s.getAdjustedInnerPduSize
    if s.length ≠ 0 ∨ 128 < lengthValue then
      let lv := if lengthValue ≠ 0 then max lengthValue 128 else 0
      { s with hdr := s.hdr.set 5 (lv / 4 % 256) }
    else s
  else s

/-- Step 3 of `write_serialization` (icmp.cpp lines 254-274): pad the
inner-payload region and serialize the extension block.  The memset
offsets mirror the code exactly: both branches write the zeroes at
`8 + adjusted size`, not after the raw payload. -/
def ICMP.wsExtensions (c : Collab) (s : ICMP) (buf : List Nat) : List Nat :=
  if s.hasExtensions then
    match s.innerPdu with
    | some p =>
      let innerSz := s.getAdjustedInnerPduSize
      if innerSz < 128 then
        splice (splice buf (8 + innerSz) (List.replicate (128 - innerSz) 0))
          (8 + 128) (c.serializeExt (s.extensions.getD []))
      else
        splice (splice buf (8 + innerSz) (List.replicate (innerSz - p.length) 0))
          (8 + innerSz) (c.serializeExt (s.extensions.getD []))
    | none => splice buf 8 (c.serializeExt (s.extensions.getD []))
  else buf

/-- `ICMP::write_serialization` (icmp.cpp lines 224-286), as a transformer
of the caller-supplied destination buffer.  Returns the updated message
object (the code mutates the length sub-field and the checksum field of
`_icmp` in place) together with the written buffer. -/
def ICMP.writeSerialization (c : Collab) (s : ICMP) (buf : List Nat) : ICMP × List Nat :=
  let buf1 := s.wsExtras buf
  let s1 := s.wsLengthField
  let buf2 := s1.wsExtensions c buf1
  let buf3 := splice buf2 0 s1.hdrWithZeroChecksum
  let inv := 65535 - foldCarry (sum16 buf3)
  ({ s1 with hdr := (s1.hdr.set 2 (inv / 256)).set 3 (inv % 256) },
   splice buf3 2 [inv / 256, inv % 256])

/-- Modelled from the spec: the stacking layer hands `write_serialization`
a zero-initialized buffer of the total size with the inner payload already
serialized at offset `header_size` (spec, encoder contract and wire
layout; the generic PDU serialize driver is outside the provided
sources). -/
def ICMP.initialBuffer (c : Collab) (s : ICMP) : List Nat :=
  splice (List.replicate (s.size c) 0) s.headerSize (s.innerPdu.getD [])

/-- `ICMP::try_parse_extensions` (icmp.cpp lines 301-331).  Takes the
remaining bytes after the fixed header and extras; returns the updated
object and the new remaining length (the C++ passes `total_sz` by
reference). -/
def ICMP.tryParseExtensions (c : Collab) (s : ICMP) (buf : List Nat) :
    ICMP × Nat :=
  let totalSz := buf.length
  if totalSz = 0 then (s, totalSz)
  else if s.areExtensionsAllowed then
    let actualLength := s.length * 4
    if actualLength < totalSz ∧ EXTENSION_PAYLOAD_LIMIT ≤ actualLength then
      let extensionsSize := totalSz - actualLength
      if c.validate (buf.drop actualLength) then
        ({ s with extensions := some (buf.drop actualLength) }, totalSz - extensionsSize)
      else (s, totalSz)
    else if EXTENSION_PAYLOAD_LIMIT < totalSz then
      let extensionsSize := totalSz - EXTENSION_PAYLOAD_LIMIT
      if c.validate (buf.drop EXTENSION_PAYLOAD_LIMIT) then
        ({ s with extensions := some (buf.drop EXTENSION_PAYLOAD_LIMIT) },
         totalSz - extensionsSize)
      else (s, totalSz)
    else (s, totalSz)
  else (s, totalSz)

/-- Tail of the parsing constructor (icmp.cpp lines 82-86): attempt to
parse extensions, then wrap whatever remains as the inner payload. -/
def ICMP.finishDecode (c : Collab) (s : ICMP) (rest : List Nat) : ICMP :=
  let r := s.tryParseExtensions c rest
  if r.2 ≠ 0 then { r.1 with innerPdu := some (rest.take r.2) } else r.1

/-- The parsing constructor `ICMP::ICMP(const uint8_t*, uint32_t)`
(icmp.cpp lines 54-87).  `none` stands for `throw malformed_packet()`;
the C++ members left unset by the constructor are modelled as zero
bytes. -/
def decode (c : Collab) (buf : List Nat) : Option ICMP :=
  if buf.length < 8 then none
  else
    let hdr := buf.take 8
    let rest := buf.drop 8
    let t := hdr.getD 0 0
    if t = TIMESTAMP_REQUEST ∨ t = TIMESTAMP_REPLY then
      if rest.length < 12 then none
      else
        some (ICMP.finishDecode c
          { hdr := hdr, origTimestampOrAddressMask := rest.take 4,
            recvTimestamp := (rest.drop 4).take 4,
            transTimestamp := (rest.drop 8).take 4,
            extensions := none, innerPdu := none } (rest.drop 12))
    else if t = ADDRESS_MASK_REQUEST ∨ t = ADDRESS_MASK_REPLY then
      if rest.length < 4 then none
      else
        some (ICMP.finishDecode c
          { hdr := hdr, origTimestampOrAddressMask := rest.take 4,
            recvTimestamp := [0, 0, 0, 0], transTimestamp := [0, 0, 0, 0],
            extensions := none, innerPdu := none } (rest.drop 4))
    else
      some (ICMP.finishDecode c
        { hdr := hdr, origTimestampOrAddressMask := [0, 0, 0, 0],
          recvTimestamp := [0, 0, 0, 0], transTimestamp := [0, 0, 0, 0],
          extensions := none, innerPdu := none } rest)

/-- `ICMP::matches_response` (icmp.cpp lines 337-347).  The two 16-bit
sub-fields of the echo view are compared as stored, which is byte
equality at offsets 4-5 and 6-7. -/
def ICMP.matchesResponse (s : ICMP) (buf : List Nat) : Bool :=
  if buf.length < 8 then false
  else if (s.type = ECHO_REQUEST ∧ buf.getD 0 0 = ECHO_REPLY) ∨
          (s.type = TIMESTAMP_REQUEST ∧ buf.getD 0 0 = TIMESTAMP_REPLY) ∨
          (s.type = ADDRESS_MASK_REQUEST ∧ buf.getD 0 0 = ADDRESS_MASK_REPLY) then
    decide (buf.getD 4 0 = s.hdr.getD 4 0 ∧ buf.getD 5 0 = s.hdr.getD 5 0 ∧
            buf.getD 6 0 = s.hdr.getD 6 0 ∧ buf.getD 7 0 = s.hdr.getD 7 0)
  else false

/-- Equality of the observable fields named by the round-trip property:
kind, code, checksum bytes, the type-specific four bytes, and — when the
kind carries them — the timestamp triple or the address mask. -/
def ICMP.obsEq (a b : ICMP) : Prop :=
  a.type = b.type ∧ a.code = b.code ∧
  a.hdr.getD 2 0 = b.hdr.getD 2 0 ∧ a.hdr.getD 3 0 = b.hdr.getD 3 0 ∧
  a.hdr.getD 4 0 = b.hdr.getD 4 0 ∧ a.hdr.getD 5 0 = b.hdr.getD 5 0 ∧
  a.hdr.getD 6 0 = b.hdr.getD 6 0 ∧ a.hdr.getD 7 0 = b.hdr.getD 7 0 ∧
  ((a.type = TIMESTAMP_REQUEST ∨ a.type = TIMESTAMP_REPLY) →
    pad4 a.origTimestampOrAddressMask = pad4 b.origTimestampOrAddressMask ∧
    pad4 a.recvTimestamp = pad4 b.recvTimestamp ∧
    pad4 a.transTimestamp = pad4 b.transTimestamp) ∧
  ((a.type = ADDRESS_MASK_REQUEST ∨ a.type = ADDRESS_MASK_REPLY) →
    pad4 a.origTimestampOrAddressMask = pad4 b.origTimestampOrAddressMask)

theorem splice_length (d : List Nat) (o : Nat) (s : List Nat) :
    (splice d o s).length = d.length := by
  simp [splice]
  omega

theorem splice_nil (d : List Nat) (o : Nat) : splice d o [] = d := by
  simp [splice]

theorem splice_zero (d s : List Nat) (h : s.length ≤ d.length) :
    splice d 0 s = s ++ d.drop s.length := by
  unfold splice
  rw [List.take_zero, List.take_of_length_le (by omega), Nat.zero_add,
    List.nil_append]

theorem splice_exact (d s : List Nat) (o : Nat) (h : d.length = o + s.length) :
    splice d o s = d.take o ++ s := by
  unfold splice
  rw [List.drop_of_length_le (show d.length ≤ o + s.length by omega),
    List.take_of_length_le (show s.length ≤ d.length - o by omega),
    List.append_nil]

theorem getD_set_ne (l : List Nat) {i j : Nat} (v : Nat) (h : i ≠ j) :
    (l.set i v).getD j 0 = l.getD j 0 := by
  simp [List.getD_eq_getElem?_getD, List.getElem?_set_ne h]

theorem getD_set_self (l : List Nat) {i : Nat} (v : Nat) (h : i < l.length) :
    (l.set i v).getD i 0 = v := by
  simp [List.getD_eq_getElem?_getD, List.getElem?_set_self h]

theorem getD_take (l : List Nat) {n i : Nat} (h : i < n) :
    (l.take n).getD i 0 = l.getD i 0 := by
  simp [List.getD_eq_getElem?_getD, List.getElem?_take, h]

theorem adjusted_eq_roundUp (sz : Nat) :
    (if sz % 4 ≠ 0 then sz - sz % 4 + 4 else sz) = (sz + 3) / 4 * 4 := by
  split_ifs <;> omega

theorem adjusted_if_eq_roundUp (sz : Nat) :
    (if sz % 4 = 0 then sz else sz - sz % 4 + 4) = (sz + 3) / 4 * 4 := by
  split_ifs <;> omega

/-- Claim C1: decoding fails (with the single malformed-input outcome,
modelled as `none`; nothing at all is produced on failure) exactly when a
structural length check fails: fewer than 8 bytes, or a timestamp kind
with fewer than 12 bytes after the fixed header, or an address-mask kind
with fewer than 4 bytes after it; otherwise decoding succeeds. -/
theorem decode_fails_iff_structural (c : Collab) (buf : List Nat) :
    decode c buf = none ↔
      buf.length < 8 ∨
      ((buf.getD 0 0 = TIMESTAMP_REQUEST ∨ buf.getD 0 0 = TIMESTAMP_REPLY) ∧
        buf.length - 8 < 12) ∨
      ((buf.getD 0 0 = ADDRESS_MASK_REQUEST ∨ buf.getD 0 0 = ADDRESS_MASK_REPLY) ∧
        buf.length - 8 < 4) := by
  have ht : (buf.take 8).getD 0 0 = buf.getD 0 0 := getD_take buf (by omega)
  simp only [decode, ht, List.length_drop, TIMESTAMP_REQUEST, TIMESTAMP_REPLY,
    ADDRESS_MASK_REQUEST, ADDRESS_MASK_REPLY]
  split_ifs with h1 h2 h3 h4 h5 <;>
    first
      | exact iff_of_true rfl (by omega)
      | exact iff_of_false (by simp) (by omega)

/-- Claim C6: `trailer_size` is 0 without extensions; with extensions it
is the byte length of the extension block plus, when an inner payload is
present, the padding `max(round_up(len, 4), 128) - len`. -/
theorem trailerSize_spec (c : Collab) (s : ICMP) :
    s.trailerSize c =
      if s.hasExtensions then
        (c.serializeExt (s.extensions.getD [])).length +
          (match s.innerPdu with
           | some p => max ((p.length + 3) / 4 * 4) 128 - p.length
           | none => 0)
      else 0 := by
  cases hp : s.innerPdu with
  | none =>
    simp [ICMP.trailerSize, ICMP.extensionsSize, ICMP.getAdjustedInnerPduSize, hp]
  | some p =>
    simp [ICMP.trailerSize, ICMP.extensionsSize, ICMP.getAdjustedInnerPduSize, hp,
      adjusted_if_eq_roundUp]

def collabTrivial : Collab := ⟨fun _ => true, fun _ => []⟩

def destUnreach40 : ICMP :=
  ⟨[3, 1, 0, 0, 0, 0, 0, 0], [0, 0, 0, 0], [0, 0, 0, 0], [0, 0, 0, 0],
   none, some (List.replicate 40 5)⟩

/-- Claim C7 counterexample: a destination-unreachable message with a
40-byte inner payload and no extensions has `trailer_size` 0, not 88 —
the padding branch of `trailer_size` runs only when extensions are
present. -/
theorem trailerSize_destUnreach40_ne_88 :
    ¬ destUnreach40.trailerSize collabTrivial = 88 := by decide

/-- Claim C7 (amended): for a destination-unreachable message carrying a
40-byte inner payload with no extensions, `trailer_size` returns 0; the
padding up to the 128-byte minimum enters the trailer only when
extensions are present. -/
theorem trailerSize_destUnreach40_eq_zero (c : Collab) (s : ICMP)
    (p : List Nat) (hty : s.type = DEST_UNREACHABLE)
    (hext : s.extensions = none) (hp : s.innerPdu = some p)
    (hlen : p.length = 40) :
    s.trailerSize c = 0 := by
  simp [ICMP.trailerSize, ICMP.hasExtensions, hext]

theorem trailerSize_destUnreach40_eq_zero_witness :
    destUnreach40.type = DEST_UNREACHABLE ∧
    destUnreach40.extensions = none ∧
    destUnreach40.innerPdu = some (List.replicate 40 5) ∧
    (List.replicate 40 5).length = 40 ∧
    destUnreach40.trailerSize collabTrivial = 0 :=
  ⟨by decide, by decide, by decide, by decide,
   trailerSize_destUnreach40_eq_zero collabTrivial destUnreach40
     (List.replicate 40 5) (by decide) (by decide) (by decide) (by decide)⟩

/-- Claim C9: `matches_response` holds exactly when the candidate is at
least 8 bytes, the kind pair is one of request/reply for echo, timestamp
or address mask, and the candidate bytes 4-7 (the echo-shaped id and
sequence sub-fields) equal the stored header bytes 4-7, compared as
stored with no byte-order conversion. -/
theorem matchesResponse_iff (s : ICMP) (buf : List Nat) :
    s.matchesResponse buf = true ↔
      8 ≤ buf.length ∧
      ((s.type = ECHO_REQUEST ∧ buf.getD 0 0 = ECHO_REPLY) ∨
       (s.type = TIMESTAMP_REQUEST ∧ buf.getD 0 0 = TIMESTAMP_REPLY) ∨
       (s.type = ADDRESS_MASK_REQUEST ∧ buf.getD 0 0 = ADDRESS_MASK_REPLY)) ∧
      (buf.getD 4 0 = s.hdr.getD 4 0 ∧ buf.getD 5 0 = s.hdr.getD 5 0 ∧
       buf.getD 6 0 = s.hdr.getD 6 0 ∧ buf.getD 7 0 = s.hdr.getD 7 0) := by
  unfold ICMP.matchesResponse
  split_ifs with h1 h2 <;> simp_all

theorem tryParseExtensions_spec (c : Collab) (s : ICMP) (rest : List Nat)
    (hext : s.areExtensionsAllowed = true) (hne : rest.length ≠ 0) :
    s.tryParseExtensions c rest =
      (if s.length * 4 < rest.length ∧ 128 ≤ s.length * 4 then
         if c.validate (rest.drop (s.length * 4)) then
           ({ s with extensions := some (rest.drop (s.length * 4)) }, s.length * 4)
         else (s, rest.length)
       else if 128 < rest.length then
         if c.validate (rest.drop 128) then
           ({ s with extensions := some (rest.drop 128) }, 128)
         else (s, rest.length)
       else (s, rest.length)) := by
  simp only [ICMP.tryParseExtensions, EXTENSION_PAYLOAD_LIMIT, hext, if_true,
    if_neg hne]
  split_ifs with h1 h2 h3 h4 <;> simp_all [Prod.mk.injEq] <;> omega

/-- Shorthand for the object the parsing constructor has built right
before `try_parse_extensions` runs, for a kind that is neither a
timestamp nor an address-mask kind. -/
def preExtState (buf : List Nat) : ICMP :=
  { hdr := buf.take 8, origTimestampOrAddressMask := [0, 0, 0, 0],
    recvTimestamp := [0, 0, 0, 0], transTimestamp := [0, 0, 0, 0],
    extensions := none, innerPdu := none }

theorem decode_capable_eq (c : Collab) (buf : List Nat)
    (hcap : buf.getD 0 0 = DEST_UNREACHABLE ∨ buf.getD 0 0 = TIME_EXCEEDED ∨
      buf.getD 0 0 = PARAM_PROBLEM)
    (hlen : 8 ≤ buf.length) :
    decode c buf = some (ICMP.finishDecode c (preExtState buf) (buf.drop 8)) := by
  have ht0 : (buf.take 8).getD 0 0 = buf.getD 0 0 := getD_take buf (by omega)
  have hne1 : ¬((buf.take 8).getD 0 0 = TIMESTAMP_REQUEST ∨
      (buf.take 8).getD 0 0 = TIMESTAMP_REPLY) := by
    rw [ht0]
    rcases hcap with h | h | h <;> rw [h] <;> decide
  have hne2 : ¬((buf.take 8).getD 0 0 = ADDRESS_MASK_REQUEST ∨
      (buf.take 8).getD 0 0 = ADDRESS_MASK_REPLY) := by
    rw [ht0]
    rcases hcap with h | h | h <;> rw [h] <;> decide
  have h8 : ¬ buf.length < 8 := by omega
  simp only [decode, if_neg h8, if_neg hne1, if_neg hne2, preExtState]

theorem preExtState_allowed (buf : List Nat)
    (hcap : buf.getD 0 0 = DEST_UNREACHABLE ∨ buf.getD 0 0 = TIME_EXCEEDED ∨
      buf.getD 0 0 = PARAM_PROBLEM)
    (hlen : 8 ≤ buf.length) :
    (preExtState buf).areExtensionsAllowed = true := by
  have ht0 : (buf.take 8).getD 0 0 = buf.getD 0 0 := getD_take buf (by omega)
  simp only [ICMP.areExtensionsAllowed, ICMP.type, preExtState, ht0,
    decide_eq_true_eq]
  exact hcap

theorem preExtState_length (buf : List Nat) (hlen : 8 ≤ buf.length) :
    (preExtState buf).length = buf.getD 5 0 := by
  have ht5 : (buf.take 8).getD 5 0 = buf.getD 5 0 := getD_take buf (by omega)
  simp only [ICMP.length, preExtState, ht5]

/-- Claim C2: on an extension-capable decode with bytes remaining after
the fixed header, with `declared` the length sub-field times 4 and `rest`
the remaining bytes: the candidate block is `rest` from offset `declared`
exactly when `declared < |rest|` and `declared ≥ 128`, else `rest` from
offset 128 exactly when `|rest| > 128`, else there is no candidate; a
validated candidate is stored in `extensions` and its bytes are removed
from the remainder, so only the bytes before the candidate become the
inner payload. -/
theorem decode_extension_detection (c : Collab) (buf : List Nat)
    (hcap : buf.getD 0 0 = DEST_UNREACHABLE ∨ buf.getD 0 0 = TIME_EXCEEDED ∨
      buf.getD 0 0 = PARAM_PROBLEM)
    (hlen : 8 < buf.length) :
    (decode c buf).map (fun st => (st.extensions, st.innerPdu)) =
      some
        (let rest := buf.drop 8
         let declared := buf.getD 5 0 * 4
         if declared < rest.length ∧ 128 ≤ declared then
           if c.validate (rest.drop declared) then
             (some (rest.drop declared), some (rest.take declared))
           else (none, some rest)
         else if 128 < rest.length then
           if c.validate (rest.drop 128) then
             (some (rest.drop 128), some (rest.take 128))
           else (none, some rest)
         else (none, some rest)) := by
  have hrl : (buf.drop 8).length = buf.length - 8 := List.length_drop 8 buf
  have hne : (buf.drop 8).length ≠ 0 := by omega
  rw [decode_capable_eq c buf hcap (by omega)]
  unfold ICMP.finishDecode
  rw [tryParseExtensions_spec c (preExtState buf) (buf.drop 8)
    (preExtState_allowed buf hcap (by omega)) hne,
    preExtState_length buf (by omega)]
  simp only [Option.map_some]
  split_ifs with h1 h2 h3 h4 <;>
    simp_all [preExtState, List.take_length] <;> omega

/-- Claim C5: when a candidate extension block exists but the
collaborator validator rejects it, decoding still succeeds, no extensions
are stored, and the whole remainder — the rejected candidate together
with the bytes before it — becomes the inner payload; rejection is never
an error. -/
theorem decode_extension_reject_lenient (c : Collab) (buf : List Nat)
    (hcap : buf.getD 0 0 = DEST_UNREACHABLE ∨ buf.getD 0 0 = TIME_EXCEEDED ∨
      buf.getD 0 0 = PARAM_PROBLEM)
    (hlen : 8 < buf.length)
    (hrej :
      (buf.getD 5 0 * 4 < (buf.drop 8).length ∧ 128 ≤ buf.getD 5 0 * 4 ∧
        c.validate ((buf.drop 8).drop (buf.getD 5 0 * 4)) = false) ∨
      (¬(buf.getD 5 0 * 4 < (buf.drop 8).length ∧ 128 ≤ buf.getD 5 0 * 4) ∧
        128 < (buf.drop 8).length ∧
        c.validate ((buf.drop 8).drop 128) = false)) :
    ∃ st, decode c buf = some st ∧ st.extensions = none ∧
      st.innerPdu = some (buf.drop 8) := by
  have hrl : (buf.drop 8).length = buf.length - 8 := List.length_drop 8 buf
  have hne : (buf.drop 8).length ≠ 0 := by omega
  have hne2 : ¬ (buf.length - 8 = 0) := by omega
  have htk2 : List.take (buf.length - 8) (List.drop 8 buf) = List.drop 8 buf := by
    rw [← hrl]
    exact List.take_length _
  rw [decode_capable_eq c buf hcap (by omega)]
  have hspec := tryParseExtensions_spec c (preExtState buf) (buf.drop 8)
    (preExtState_allowed buf hcap (by omega)) hne
  rw [preExtState_length buf (by omega)] at hspec
  rcases hrej with ⟨ha, hb, hv⟩ | ⟨ha, hb, hv⟩
  · rw [if_pos ⟨ha, hb⟩,
      if_neg (show ¬ c.validate ((buf.drop 8).drop (buf.getD 5 0 * 4)) = true by
        rw [hv]
        decide)] at hspec
    refine ⟨_, rfl, ?_⟩
    simp only [ICMP.finishDecode, hspec]
    simp [preExtState, hne2, htk2]
  · rw [if_neg ha, if_pos hb,
      if_neg (show ¬ c.validate ((buf.drop 8).drop 128) = true by
        rw [hv]
        decide)] at hspec
    refine ⟨_, rfl, ?_⟩
    simp only [ICMP.finishDecode, hspec]
    simp [preExtState, hne2, htk2]

set_option maxRecDepth 20000

def bufC2 : List Nat := [3, 0, 0, 0, 0, 0, 0, 0] ++ List.replicate 128 7 ++ [9, 9]

theorem decode_extension_detection_witness :
    ((bufC2.getD 0 0 = DEST_UNREACHABLE ∨ bufC2.getD 0 0 = TIME_EXCEEDED ∨
        bufC2.getD 0 0 = PARAM_PROBLEM) ∧ 8 < bufC2.length) ∧
    (decode collabTrivial bufC2).map (fun st => (st.extensions, st.innerPdu)) =
      some
        (let rest := bufC2.drop 8
         let declared := bufC2.getD 5 0 * 4
         if declared < rest.length ∧ 128 ≤ declared then
           if collabTrivial.validate (rest.drop declared) then
             (some (rest.drop declared), some (rest.take declared))
           else (none, some rest)
         else if 128 < rest.length then
           if collabTrivial.validate (rest.drop 128) then
             (some (rest.drop 128), some (rest.take 128))
           else (none, some rest)
         else (none, some rest)) :=
  ⟨⟨by decide, by decide⟩,
   decode_extension_detection collabTrivial bufC2 (by decide) (by decide)⟩

def collabReject : Collab := ⟨fun _ => false, fun _ => []⟩

def bufC5 : List Nat := [3, 0, 0, 0, 0, 0, 0, 0] ++ List.replicate 129 7

theorem decode_extension_reject_lenient_witness :
    ((bufC5.getD 0 0 = DEST_UNREACHABLE ∨ bufC5.getD 0 0 = TIME_EXCEEDED ∨
        bufC5.getD 0 0 = PARAM_PROBLEM) ∧ 8 < bufC5.length ∧
      ¬(bufC5.getD 5 0 * 4 < (bufC5.drop 8).length ∧ 128 ≤ bufC5.getD 5 0 * 4) ∧
      128 < (bufC5.drop 8).length ∧
      collabReject.validate ((bufC5.drop 8).drop 128) = false) ∧
    (∃ st, decode collabReject bufC5 = some st ∧ st.extensions = none ∧
      st.innerPdu = some (bufC5.drop 8)) :=
  ⟨⟨by decide, by decide, by decide, by decide, by decide⟩,
   decode_extension_reject_lenient collabReject bufC5 (by decide) (by decide)
     (Or.inr ⟨by decide, by decide, by decide⟩)⟩

theorem wsExtras_length (s : ICMP) (buf : List Nat) :
    (s.wsExtras buf).length = buf.length := by
  unfold ICMP.wsExtras
  split_ifs <;> simp [splice_length]

theorem wsExtensions_length (c : Collab) (s : ICMP) (buf : List Nat) :
    (s.wsExtensions c buf).length = buf.length := by
  unfold ICMP.wsExtensions
  cases s.innerPdu <;> split_ifs <;>
    simp [splice_length, apply_ite List.length]

theorem foldCarryAux_lt (fuel : Nat) : ∀ n, n ≤ fuel → foldCarryAux fuel n < 65536 := by
  induction fuel with
  | zero =>
    intro n h
    unfold foldCarryAux
    omega
  | succ f ih =>
    intro n h
    unfold foldCarryAux
    split_ifs with h1
    · exact h1
    · exact ih _ (by omega)

theorem foldCarry_lt (n : Nat) : foldCarry n < 65536 :=
  foldCarryAux_lt n n le_rfl

/-- The body of the output buffer after the fixed header, as produced by
the three buffer-writing steps of `write_serialization`. -/
def wsBody (c : Collab) (s : ICMP) (buf : List Nat) : List Nat :=
  (s.wsLengthField.wsExtensions c (s.wsExtras buf)).drop 8

/-- The 16-bit value stored into the checksum field: the complement of
the carry-folded sum of the checksum-zeroed output buffer. -/
def wsInv (c : Collab) (s : ICMP) (buf : List Nat) : Nat :=
  65535 - foldCarry (sum16 (s.wsLengthField.hdrWithZeroChecksum ++ wsBody c s buf))

theorem splice_two_into_eight (b0 b1 b2 b3 b4 b5 b6 b7 x y : Nat) (t : List Nat) :
    splice (b0 :: b1 :: b2 :: b3 :: b4 :: b5 :: b6 :: b7 :: t) 2 [x, y] =
      b0 :: b1 :: x :: y :: b4 :: b5 :: b6 :: b7 :: t := by
  unfold splice
  have h1 : (b0 :: b1 :: b2 :: b3 :: b4 :: b5 :: b6 :: b7 :: t).length - 2 =
      t.length + 6 := by simp
  rw [h1, List.take_of_length_le (show [x, y].length ≤ t.length + 6 by simp)]
  rfl

theorem writeSerialization_eq (c : Collab) (s : ICMP) (buf : List Nat)
    (hbuf : 8 ≤ buf.length) :
    s.writeSerialization c buf =
      ({ s.wsLengthField with
          hdr := (s.wsLengthField.hdr.set 2 (wsInv c s buf / 256)).set 3
            (wsInv c s buf % 256) },
       s.wsLengthField.hdr.getD 0 0 :: s.wsLengthField.hdr.getD 1 0 ::
         wsInv c s buf / 256 :: wsInv c s buf % 256 ::
         s.wsLengthField.hdr.getD 4 0 :: s.wsLengthField.hdr.getD 5 0 ::
         s.wsLengthField.hdr.getD 6 0 :: s.wsLengthField.hdr.getD 7 0 ::
         wsBody c s buf) := by
  have hlen : (s.wsLengthField.wsExtensions c (s.wsExtras buf)).length = buf.length := by
    rw [wsExtensions_length, wsExtras_length]
  have hsp : splice (s.wsLengthField.wsExtensions c (s.wsExtras buf)) 0
      s.wsLengthField.hdrWithZeroChecksum =
      s.wsLengthField.hdrWithZeroChecksum ++ wsBody c s buf := by
    rw [splice_zero _ _
      (show (s.wsLengthField.hdrWithZeroChecksum).length ≤ _ by
        rw [hlen]
        simp [ICMP.hdrWithZeroChecksum]
        omega)]
    rw [show (s.wsLengthField.hdrWithZeroChecksum).length = 8 by
      simp [ICMP.hdrWithZeroChecksum]]
    rfl
  simp only [ICMP.writeSerialization, hsp]
  rw [show s.wsLengthField.hdrWithZeroChecksum ++ wsBody c s buf =
      s.wsLengthField.hdr.getD 0 0 :: s.wsLengthField.hdr.getD 1 0 :: 0 :: 0 ::
        s.wsLengthField.hdr.getD 4 0 :: s.wsLengthField.hdr.getD 5 0 ::
        s.wsLengthField.hdr.getD 6 0 :: s.wsLengthField.hdr.getD 7 0 ::
        wsBody c s buf from rfl,
    splice_two_into_eight]
  rfl

/-- The value the encoder computes for the length sub-field when it has
to write one (icmp.cpp lines 248-250, including the 8-bit truncation). -/
def encLenValue (s : ICMP) : Nat :=
  (if s.getAdjustedInnerPduSize ≠ 0 then max s.getAdjustedInnerPduSize 128
   else 0) / 4 % 256

/-- Claim C10: `use_length_field(true)` stores the sentinel value 1 in
the RFC 4884 length sub-field and `use_length_field(false)` resets it to
0, discarding any nonzero value previously decoded from the wire; during
encoding of an extension-capable message, any nonzero stored length
sub-field — wherever it came from — makes the encoder replace it by the
computed value `max(adjusted, 128) / 4` (0 when there is no inner
payload), both in the mutated object and in output byte 5. -/
theorem useLengthField_sentinel_encoder (c : Collab) (s : ICMP)
    (buf : List Nat) (h8 : s.hdr.length = 8)
    (hext : s.areExtensionsAllowed = true) (hnz : s.length ≠ 0)
    (hbuf : 8 ≤ buf.length) :
    (s.useLengthField true).length = 1 ∧
    (s.useLengthField false).length = 0 ∧
    (s.writeSerialization c buf).1.length =
      (if s.getAdjustedInnerPduSize ≠ 0 then max s.getAdjustedInnerPduSize 128
       else 0) / 4 % 256 ∧
    (s.writeSerialization c buf).2.getD 5 0 =
      (if s.getAdjustedInnerPduSize ≠ 0 then max s.getAdjustedInnerPduSize 128
       else 0) / 4 % 256 := by
  have h5 : (5 : Nat) < s.hdr.length := by omega
  have hs1 : s.wsLengthField = { s with hdr := s.hdr.set 5 (encLenValue s) } := by
    simp only [ICMP.wsLengthField, encLenValue, hext, if_true]
    rw [if_pos (Or.inl hnz)]
  refine ⟨?_, ?_, ?_, ?_⟩
  · simp only [ICMP.useLengthField, ICMP.length, if_true]
    exact getD_set_self _ _ h5
  · simp only [ICMP.useLengthField, ICMP.length, if_false, Bool.false_eq_true]
    exact getD_set_self _ _ h5
  · rw [writeSerialization_eq c s buf hbuf]
    simp only [ICMP.length, hs1]
    rw [getD_set_ne _ _ (by omega), getD_set_ne _ _ (by omega)]
    exact getD_set_self _ _ (by simpa using h5)
  · rw [writeSerialization_eq c s buf hbuf]
    show s.wsLengthField.hdr.getD 5 0 = _
    rw [hs1]
    exact getD_set_self _ _ h5

def msgLen10 : ICMP :=
  ⟨[3, 0, 0, 0, 0, 1, 0, 0], [0, 0, 0, 0], [0, 0, 0, 0], [0, 0, 0, 0],
   none, some (List.replicate 40 7)⟩

theorem useLengthField_sentinel_encoder_witness :
    (msgLen10.hdr.length = 8 ∧ msgLen10.areExtensionsAllowed = true ∧
      msgLen10.length ≠ 0 ∧ 8 ≤ (List.replicate 8 0 : List Nat).length) ∧
    ((msgLen10.useLengthField true).length = 1 ∧
     (msgLen10.useLengthField false).length = 0 ∧
     (msgLen10.writeSerialization collabTrivial (List.replicate 8 0)).1.length =
       (if msgLen10.getAdjustedInnerPduSize ≠ 0 then
          max msgLen10.getAdjustedInnerPduSize 128 else 0) / 4 % 256 ∧
     (msgLen10.writeSerialization collabTrivial (List.replicate 8 0)).2.getD 5 0 =
       (if msgLen10.getAdjustedInnerPduSize ≠ 0 then
          max msgLen10.getAdjustedInnerPduSize 128 else 0) / 4 % 256) :=
  ⟨⟨by decide, by decide, by decide, by decide⟩,
   useLengthField_sentinel_encoder collabTrivial msgLen10 (List.replicate 8 0)
     (by decide) (by decide) (by decide) (by decide)⟩

theorem set23_zero (a b x y : Nat) (r : List Nat) :
    ((a :: b :: x :: y :: r).set 2 0).set 3 0 = a :: b :: 0 :: 0 :: r := rfl

/-- Claim C3: with a destination buffer of exactly the required size,
bytes 2 and 3 of the encoded output hold, big-endian, the bitwise
complement of the carry-folded 16-bit one's-complement sum of the entire
output buffer taken with its checksum bytes zeroed (the folded sum is
below 2^16, so the complement is 65535 minus it). -/
theorem writeSerialization_checksum (c : Collab) (s : ICMP) (buf : List Nat)
    (hbuf : buf.length = s.size c) :
    foldCarry (sum16 (((s.writeSerialization c buf).2.set 2 0).set 3 0)) < 65536 ∧
    (s.writeSerialization c buf).2.getD 2 0 =
      (65535 -
        foldCarry (sum16 (((s.writeSerialization c buf).2.set 2 0).set 3 0))) / 256 ∧
    (s.writeSerialization c buf).2.getD 3 0 =
      (65535 -
        foldCarry (sum16 (((s.writeSerialization c buf).2.set 2 0).set 3 0))) % 256 := by
  have h8 : 8 ≤ buf.length := by
    rw [hbuf]
    unfold ICMP.size ICMP.headerSize
    split_ifs <;> omega
  rw [writeSerialization_eq c s buf h8, set23_zero]
  exact ⟨foldCarry_lt _, rfl, rfl⟩

def msgEcho : ICMP :=
  ⟨[8, 0, 0, 0, 18, 52, 0, 1], [0, 0, 0, 0], [0, 0, 0, 0], [0, 0, 0, 0],
   none, none⟩

theorem writeSerialization_checksum_witness :
    (List.replicate 8 0 : List Nat).length = msgEcho.size collabTrivial ∧
    (foldCarry (sum16 (((msgEcho.writeSerialization collabTrivial
        (List.replicate 8 0)).2.set 2 0).set 3 0)) < 65536 ∧
     (msgEcho.writeSerialization collabTrivial (List.replicate 8 0)).2.getD 2 0 =
       (65535 - foldCarry (sum16 (((msgEcho.writeSerialization collabTrivial
         (List.replicate 8 0)).2.set 2 0).set 3 0))) / 256 ∧
     (msgEcho.writeSerialization collabTrivial (List.replicate 8 0)).2.getD 3 0 =
       (65535 - foldCarry (sum16 (((msgEcho.writeSerialization collabTrivial
         (List.replicate 8 0)).2.set 2 0).set 3 0))) % 256) :=
  ⟨by decide,
   writeSerialization_checksum collabTrivial msgEcho (List.replicate 8 0) (by decide)⟩

def collabC8 : Collab := ⟨fun _ => true, fun _ => [0, 0, 0, 8, 1, 1, 0, 0]⟩

def msgC8 : ICMP :=
  ⟨[3, 0, 0, 0, 0, 0, 0, 0], [0, 0, 0, 0], [0, 0, 0, 0], [0, 0, 0, 0],
   some [9, 9], some [1, 2, 3, 4, 5, 6]⟩

def bufC8 : List Nat :=
  [0, 0, 0, 0, 0, 0, 0, 0] ++ [1, 2, 3, 4, 5, 6] ++ [170, 170] ++
    List.replicate 128 0

/-- Claim C8 evaluated at a failing input: a destination-unreachable
message with extensions and a 6-byte inner payload (adjusted size 8,
below 128), encoded into an exactly-sized destination buffer whose
alignment-gap bytes at offsets 14-15 hold 170.  The claim says the
encoder zero-fills from offset 8 + 6 = 14 up to offset 8 + 128; the code
starts its memset at offset 8 + adjusted = 16 and leaves the gap bytes
untouched (and in the other branch it memsets past the padded region,
where the extensions are then serialized over the zeroes). -/
theorem writeSerialization_gap_kept :
    bufC8.length = msgC8.size collabC8 ∧
    (msgC8.writeSerialization collabC8 bufC8).2.getD 14 0 = 170 ∧
    (msgC8.writeSerialization collabC8 bufC8).2.getD 15 0 = 170 ∧
    (msgC8.writeSerialization collabC8 bufC8).2.getD 16 0 = 0 := by decide

theorem wsLengthField_not_allowed (s : ICMP) (h : s.areExtensionsAllowed = false) :
    s.wsLengthField = s := by
  simp [ICMP.wsLengthField, h]

theorem wsExtensions_no_block (c : Collab) (s : ICMP) (buf : List Nat)
    (h : s.extensions = none) : s.wsExtensions c buf = buf := by
  simp [ICMP.wsExtensions, ICMP.hasExtensions, h]

theorem pad4_idem (l : List Nat) : pad4 (pad4 l) = pad4 l := rfl

theorem initialBuffer_no_payload (c : Collab) (s : ICMP)
    (hexts : s.extensions = none) (hinner : s.innerPdu = none) :
    s.initialBuffer c = List.replicate s.headerSize 0 := by
  simp [ICMP.initialBuffer, ICMP.size, ICMP.trailerSize, ICMP.hasExtensions,
    hexts, hinner, splice_nil]

theorem writeSerialization_snd_eq (c : Collab) (s : ICMP) (buf : List Nat)
    (hbuf : 8 ≤ buf.length) :
    (s.writeSerialization c buf).2 =
      s.wsLengthField.hdr.getD 0 0 :: s.wsLengthField.hdr.getD 1 0 ::
        wsInv c s buf / 256 :: wsInv c s buf % 256 ::
        s.wsLengthField.hdr.getD 4 0 :: s.wsLengthField.hdr.getD 5 0 ::
        s.wsLengthField.hdr.getD 6 0 :: s.wsLengthField.hdr.getD 7 0 ::
        wsBody c s buf := by
  rw [writeSerialization_eq c s buf hbuf]

theorem writeSerialization_fst_eq (c : Collab) (s : ICMP) (buf : List Nat)
    (hbuf : 8 ≤ buf.length) :
    (s.writeSerialization c buf).1 =
      { s.wsLengthField with
        hdr := (s.wsLengthField.hdr.set 2 (wsInv c s buf / 256)).set 3
          (wsInv c s buf % 256) } := by
  rw [writeSerialization_eq c s buf hbuf]

theorem decode_ts_chain (c : Collab) (g0 g1 x y g4 g5 g6 g7 : Nat)
    (o r tr : List Nat) (ho : o.length = 4) (hr : r.length = 4)
    (htr : tr.length = 4)
    (ht : g0 = TIMESTAMP_REQUEST ∨ g0 = TIMESTAMP_REPLY) :
    decode c (g0 :: g1 :: x :: y :: g4 :: g5 :: g6 :: g7 :: (o ++ (r ++ tr))) =
      some { hdr := [g0, g1, x, y, g4, g5, g6, g7],
             origTimestampOrAddressMask := o, recvTimestamp := r,
             transTimestamp := tr, extensions := none, innerPdu := none } := by
  have h1 : ¬ ((g0 :: g1 :: x :: y :: g4 :: g5 :: g6 :: g7 ::
      (o ++ (r ++ tr))).length < 8) := by simp
  have htake : (g0 :: g1 :: x :: y :: g4 :: g5 :: g6 :: g7 ::
      (o ++ (r ++ tr))).take 8 = [g0, g1, x, y, g4, g5, g6, g7] := rfl
  have hgd : ([g0, g1, x, y, g4, g5, g6, g7] : List Nat).getD 0 0 = g0 := rfl
  have hdrp : (g0 :: g1 :: x :: y :: g4 :: g5 :: g6 :: g7 ::
      (o ++ (r ++ tr))).drop 8 = o ++ (r ++ tr) := rfl
  have h2 : ¬ ((o ++ (r ++ tr)).length < 12) := by simp [ho, hr, htr]
  have ht4 : (o ++ (r ++ tr)).take 4 = o := List.take_left' ho
  have hd4 : (o ++ (r ++ tr)).drop 4 = r ++ tr := List.drop_left' ho
  have ht4b : (r ++ tr).take 4 = r := List.take_left' hr
  have hd8 : (o ++ (r ++ tr)).drop 8 = tr := by
    rw [show o ++ (r ++ tr) = (o ++ r) ++ tr by simp,
      List.drop_left' (show (o ++ r).length = 8 by simp [ho, hr])]
  have htr4 : tr.take 4 = tr := List.take_of_length_le (by omega)
  have hd12 : (o ++ (r ++ tr)).drop 12 = [] :=
    List.drop_of_length_le (by simp [ho, hr, htr])
  simp only [decode, htake, hgd, hdrp, if_neg h1, if_pos ht, if_neg h2, ht4,
    hd4, ht4b, hd8, htr4, hd12]
  simp [ICMP.finishDecode, ICMP.tryParseExtensions]

theorem decode_mask_chain (c : Collab) (g0 g1 x y g4 g5 g6 g7 : Nat)
    (o : List Nat) (ho : o.length = 4)
    (hm : g0 = ADDRESS_MASK_REQUEST ∨ g0 = ADDRESS_MASK_REPLY) :
    decode c (g0 :: g1 :: x :: y :: g4 :: g5 :: g6 :: g7 :: o) =
      some { hdr := [g0, g1, x, y, g4, g5, g6, g7],
             origTimestampOrAddressMask := o, recvTimestamp := [0, 0, 0, 0],
             transTimestamp := [0, 0, 0, 0], extensions := none,
             innerPdu := none } := by
  have hnets : ¬ (g0 = TIMESTAMP_REQUEST ∨ g0 = TIMESTAMP_REPLY) := by
    rcases hm with h | h <;> rw [h] <;> decide
  have h1 : ¬ ((g0 :: g1 :: x :: y :: g4 :: g5 :: g6 :: g7 :: o).length < 8) := by
    simp
  have htake : (g0 :: g1 :: x :: y :: g4 :: g5 :: g6 :: g7 :: o).take 8 =
      [g0, g1, x, y, g4, g5, g6, g7] := rfl
  have hgd : ([g0, g1, x, y, g4, g5, g6, g7] : List Nat).getD 0 0 = g0 := rfl
  have hdrp : (g0 :: g1 :: x :: y :: g4 :: g5 :: g6 :: g7 :: o).drop 8 = o := rfl
  have h2 : ¬ (o.length < 4) := by omega
  have ht4 : o.take 4 = o := List.take_of_length_le (by omega)
  have hd4 : o.drop 4 = [] := List.drop_of_length_le (by omega)
  simp only [decode, htake, hgd, hdrp, if_neg h1, if_neg hnets, if_pos hm,
    if_neg h2, ht4, hd4]
  simp [ICMP.finishDecode, ICMP.tryParseExtensions]

theorem decode_plain_chain (c : Collab) (g0 g1 x y g4 g5 g6 g7 : Nat)
    (hne1 : ¬ (g0 = TIMESTAMP_REQUEST ∨ g0 = TIMESTAMP_REPLY))
    (hne2 : ¬ (g0 = ADDRESS_MASK_REQUEST ∨ g0 = ADDRESS_MASK_REPLY)) :
    decode c (g0 :: g1 :: x :: y :: g4 :: g5 :: g6 :: g7 :: []) =
      some { hdr := [g0, g1, x, y, g4, g5, g6, g7],
             origTimestampOrAddressMask := [0, 0, 0, 0],
             recvTimestamp := [0, 0, 0, 0], transTimestamp := [0, 0, 0, 0],
             extensions := none, innerPdu := none } := by
  have h1 : ¬ (([g0, g1, x, y, g4, g5, g6, g7] : List Nat).length < 8) := by simp
  have htake : ([g0, g1, x, y, g4, g5, g6, g7] : List Nat).take 8 =
      [g0, g1, x, y, g4, g5, g6, g7] := rfl
  have hgd : ([g0, g1, x, y, g4, g5, g6, g7] : List Nat).getD 0 0 = g0 := rfl
  have hdrp : ([g0, g1, x, y, g4, g5, g6, g7] : List Nat).drop 8 = [] := rfl
  simp only [decode, htake, hgd, hdrp, if_neg h1, if_neg hne1, if_neg hne2]
  simp [ICMP.finishDecode, ICMP.tryParseExtensions]

theorem hdr_set23_getD (l : List Nat) (x y i : Nat) (hl : 8 ≤ l.length)
    (hi : i < 8) :
    ((l.set 2 x).set 3 y).getD i 0 =
      if i = 2 then x else if i = 3 then y else l.getD i 0 := by
  split_ifs with e2 e3
  · subst e2
    rw [getD_set_ne _ _ (by omega), getD_set_self _ _ (by omega)]
  · subst e3
    rw [getD_set_self _ _ (by rw [List.length_set]; omega)]
  · rw [getD_set_ne _ _ (by omega), getD_set_ne _ _ (by omega)]

theorem obsEq_decoded (s : ICMP) (x y : Nat) (o r tr : List Nat)
    (h8 : s.hdr.length = 8)
    (hts : (s.hdr.getD 0 0 = TIMESTAMP_REQUEST ∨
        s.hdr.getD 0 0 = TIMESTAMP_REPLY) →
      o = pad4 s.origTimestampOrAddressMask ∧ r = pad4 s.recvTimestamp ∧
        tr = pad4 s.transTimestamp)
    (hmask : (s.hdr.getD 0 0 = ADDRESS_MASK_REQUEST ∨
        s.hdr.getD 0 0 = ADDRESS_MASK_REPLY) →
      o = pad4 s.origTimestampOrAddressMask) :
    ICMP.obsEq
      { hdr := [s.hdr.getD 0 0, s.hdr.getD 1 0, x, y, s.hdr.getD 4 0,
          s.hdr.getD 5 0, s.hdr.getD 6 0, s.hdr.getD 7 0],
        origTimestampOrAddressMask := o, recvTimestamp := r,
        transTimestamp := tr, extensions := none, innerPdu := none }
      { s with hdr := (s.hdr.set 2 x).set 3 y } := by
  unfold ICMP.obsEq ICMP.type ICMP.code
  refine ⟨?_, ?_, ?_, ?_, ?_, ?_, ?_, ?_, ?_, ?_⟩
  · rw [hdr_set23_getD s.hdr x y 0 (by omega) (by omega)]
    simp
  · rw [hdr_set23_getD s.hdr x y 1 (by omega) (by omega)]
    simp
  · rw [hdr_set23_getD s.hdr x y 2 (by omega) (by omega)]
    simp
  · rw [hdr_set23_getD s.hdr x y 3 (by omega) (by omega)]
    simp
  · rw [hdr_set23_getD s.hdr x y 4 (by omega) (by omega)]
    simp
  · rw [hdr_set23_getD s.hdr x y 5 (by omega) (by omega)]
    simp
  · rw [hdr_set23_getD s.hdr x y 6 (by omega) (by omega)]
    simp
  · rw [hdr_set23_getD s.hdr x y 7 (by omega) (by omega)]
    simp
  · intro h
    have h2 : s.hdr.getD 0 0 = TIMESTAMP_REQUEST ∨
        s.hdr.getD 0 0 = TIMESTAMP_REPLY := by simpa using h
    obtain ⟨eo, er, etr⟩ := hts h2
    subst eo
    subst er
    subst etr
    exact ⟨pad4_idem _, pad4_idem _, pad4_idem _⟩
  · intro h
    have h2 : s.hdr.getD 0 0 = ADDRESS_MASK_REQUEST ∨
        s.hdr.getD 0 0 = ADDRESS_MASK_REPLY := by simpa using h
    have eo := hmask h2
    subst eo
    exact pad4_idem _

theorem ts_ne_mask (a : Nat)
    (h1 : a = TIMESTAMP_REQUEST ∨ a = TIMESTAMP_REPLY)
    (h2 : a = ADDRESS_MASK_REQUEST ∨ a = ADDRESS_MASK_REPLY) : False := by
  rcases h1 with h1 | h1 <;> rcases h2 with h2 | h2 <;> subst h1 <;>
    simp [TIMESTAMP_REQUEST, TIMESTAMP_REPLY, ADDRESS_MASK_REQUEST,
      ADDRESS_MASK_REPLY] at h2

theorem roundTrip_ts (c : Collab) (s : ICMP) (h8 : s.hdr.length = 8)
    (hext : s.areExtensionsAllowed = false) (hexts : s.extensions = none)
    (hinner : s.innerPdu = none)
    (ht : s.type = TIMESTAMP_REQUEST ∨ s.type = TIMESTAMP_REPLY) :
    ∃ t, decode c (s.writeSerialization c (s.initialBuffer c)).2 = some t ∧
      t.obsEq (s.writeSerialization c (s.initialBuffer c)).1 := by
  have ht' : s.hdr.getD 0 0 = TIMESTAMP_REQUEST ∨
      s.hdr.getD 0 0 = TIMESTAMP_REPLY := ht
  have hhs : s.headerSize = 20 := by
    unfold ICMP.headerSize
    rw [if_pos ht]
  have hb0 : s.initialBuffer c = List.replicate 20 0 := by
    rw [initialBuffer_no_payload c s hexts hinner, hhs]
  have hblen : (8 : Nat) ≤ (List.replicate 20 (0 : Nat)).length := by simp
  have hbody : wsBody c s (List.replicate 20 0) =
      pad4 s.origTimestampOrAddressMask ++
        (pad4 s.recvTimestamp ++ pad4 s.transTimestamp) := by
    unfold wsBody
    rw [wsLengthField_not_allowed s hext, wsExtensions_no_block c s _ hexts]
    unfold ICMP.wsExtras
    rw [if_pos ht, splice_exact _ _ _ (by simp [pad4]), List.append_assoc]
    rfl
  rw [hb0, writeSerialization_snd_eq c s _ hblen,
    writeSerialization_fst_eq c s _ hblen, wsLengthField_not_allowed s hext,
    hbody]
  refine ⟨_, decode_ts_chain c _ _ _ _ _ _ _ _ _ _ _ (by simp [pad4])
    (by simp [pad4]) (by simp [pad4]) ht', ?_⟩
  exact obsEq_decoded s _ _ _ _ _ h8 (fun _ => ⟨rfl, rfl, rfl⟩)
    (fun h => (ts_ne_mask _ ht' h).elim)

theorem roundTrip_mask (c : Collab) (s : ICMP) (h8 : s.hdr.length = 8)
    (hext : s.areExtensionsAllowed = false) (hexts : s.extensions = none)
    (hinner : s.innerPdu = none)
    (hm : s.type = ADDRESS_MASK_REQUEST ∨ s.type = ADDRESS_MASK_REPLY) :
    ∃ t, decode c (s.writeSerialization c (s.initialBuffer c)).2 = some t ∧
      t.obsEq (s.writeSerialization c (s.initialBuffer c)).1 := by
  have hm' : s.hdr.getD 0 0 = ADDRESS_MASK_REQUEST ∨
      s.hdr.getD 0 0 = ADDRESS_MASK_REPLY := hm
  have hnets : ¬ (s.type = TIMESTAMP_REQUEST ∨ s.type = TIMESTAMP_REPLY) := by
    rcases hm with h | h <;> rw [h] <;> decide
  have hhs : s.headerSize = 12 := by
    unfold ICMP.headerSize
    rw [if_neg hnets, if_pos hm]
  have hb0 : s.initialBuffer c = List.replicate 12 0 := by
    rw [initialBuffer_no_payload c s hexts hinner, hhs]
  have hblen : (8 : Nat) ≤ (List.replicate 12 (0 : Nat)).length := by simp
  have hbody : wsBody c s (List.replicate 12 0) =
      pad4 s.origTimestampOrAddressMask := by
    unfold wsBody
    rw [wsLengthField_not_allowed s hext, wsExtensions_no_block c s _ hexts]
    unfold ICMP.wsExtras
    rw [if_neg hnets, if_pos hm, splice_exact _ _ _ (by simp [pad4])]
    rfl
  rw [hb0, writeSerialization_snd_eq c s _ hblen,
    writeSerialization_fst_eq c s _ hblen, wsLengthField_not_allowed s hext,
    hbody]
  refine ⟨_, decode_mask_chain c _ _ _ _ _ _ _ _ _ (by simp [pad4]) hm', ?_⟩
  exact obsEq_decoded s _ _ _ _ _ h8
    (fun h => (ts_ne_mask _ h hm').elim) (fun _ => rfl)

theorem roundTrip_plain (c : Collab) (s : ICMP) (h8 : s.hdr.length = 8)
    (hext : s.areExtensionsAllowed = false) (hexts : s.extensions = none)
    (hinner : s.innerPdu = none)
    (hne1 : ¬ (s.type = TIMESTAMP_REQUEST ∨ s.type = TIMESTAMP_REPLY))
    (hne2 : ¬ (s.type = ADDRESS_MASK_REQUEST ∨ s.type = ADDRESS_MASK_REPLY)) :
    ∃ t, decode c (s.writeSerialization c (s.initialBuffer c)).2 = some t ∧
      t.obsEq (s.writeSerialization c (s.initialBuffer c)).1 := by
  have hne1' : ¬ (s.hdr.getD 0 0 = TIMESTAMP_REQUEST ∨
      s.hdr.getD 0 0 = TIMESTAMP_REPLY) := hne1
  have hne2' : ¬ (s.hdr.getD 0 0 = ADDRESS_MASK_REQUEST ∨
      s.hdr.getD 0 0 = ADDRESS_MASK_REPLY) := hne2
  have hhs : s.headerSize = 8 := by
    unfold ICMP.headerSize
    rw [if_neg hne1, if_neg hne2]
  have hb0 : s.initialBuffer c = List.replicate 8 0 := by
    rw [initialBuffer_no_payload c s hexts hinner, hhs]
  have hblen : (8 : Nat) ≤ (List.replicate 8 (0 : Nat)).length := by simp
  have hbody : wsBody c s (List.replicate 8 0) = [] := by
    unfold wsBody
    rw [wsLengthField_not_allowed s hext, wsExtensions_no_block c s _ hexts]
    unfold ICMP.wsExtras
    rw [if_neg hne1, if_neg hne2]
    rfl
  rw [hb0, writeSerialization_snd_eq c s _ hblen,
    writeSerialization_fst_eq c s _ hblen, wsLengthField_not_allowed s hext,
    hbody]
  refine ⟨_, decode_plain_chain c _ _ _ _ _ _ _ _ hne1' hne2', ?_⟩
  exact obsEq_decoded s _ _ _ _ _ h8 (fun h => absurd h hne1')
    (fun h => absurd h hne2')

/-- Claim C4: for a message whose kind is not extension-capable (and so,
by the data-model invariant, with no stored extension block), with no
inner payload and a full 8-byte header, decoding the buffer produced by
encoding it into a zero-initialized buffer of exactly the required size
yields a message whose observable fields — kind, code, checksum bytes,
the four type-specific bytes and, for the kinds that carry them, the
timestamp triple or the address mask — equal those of the message as it
stands after encoding (the code updates the checksum field of the object
in place while serializing, exactly as the C++ API does). -/
theorem decode_encode_roundTrip (c : Collab) (s : ICMP)
    (h8 : s.hdr.length = 8) (hext : s.areExtensionsAllowed = false)
    (hexts : s.extensions = none) (hinner : s.innerPdu = none) :
    ∃ t, decode c (s.writeSerialization c (s.initialBuffer c)).2 = some t ∧
      t.obsEq (s.writeSerialization c (s.initialBuffer c)).1 := by
  by_cases ht : s.type = TIMESTAMP_REQUEST ∨ s.type = TIMESTAMP_REPLY
  · exact roundTrip_ts c s h8 hext hexts hinner ht
  · by_cases hm : s.type = ADDRESS_MASK_REQUEST ∨ s.type = ADDRESS_MASK_REPLY
    · exact roundTrip_mask c s h8 hext hexts hinner hm
    · exact roundTrip_plain c s h8 hext hexts hinner ht hm

theorem decode_encode_roundTrip_witness :
    (msgEcho.hdr.length = 8 ∧ msgEcho.areExtensionsAllowed = false ∧
      msgEcho.extensions = none ∧ msgEcho.innerPdu = none) ∧
    (∃ t, decode collabTrivial (msgEcho.writeSerialization collabTrivial
        (msgEcho.initialBuffer collabTrivial)).2 = some t ∧
      t.obsEq (msgEcho.writeSerialization collabTrivial
        (msgEcho.initialBuffer collabTrivial)).1) :=
  ⟨⟨by decide, by decide, by decide, by decide⟩,
   decode_encode_roundTrip collabTrivial msgEcho (by decide) (by decide)
     (by decide) (by decide)⟩

end ICMPSpec
